import Mathlib

/-!
Shallow embedding of the temperature-analysis pipeline of `back.py`
(`load_data`, `roll_analysis`, `seasonal_analysis`, `long_term_trend`,
`analyze_city`, `sequential_analysis`, `parallel_analysis`, `get_season`,
`check_anomaly`) and verification of the specification's claims about it.

Conventions of the embedding:
* A `pandas` DataFrame is a `List` of row structures; list order is table
  row order.
* Float values are modelled as exact rationals (`ℚ`).  A `NaN` cell is
  modelled as `none : Option ℚ`; every IEEE comparison against `NaN` is
  `false`, which the `Option`-matching comparison helpers below reproduce.
* The columns `roll_std_30` / `season_std` of the source hold the square
  root of a sample variance, irrational in general.  The embedding stores
  the exact variance (`roll_var_30` / `season_var`, the square of the
  column) and encodes each comparison of the source that involves the
  standard deviation by the equivalent squared comparison; the lemmas
  `outOfBand_iff_real` and `withinBand_iff_real` prove these encodings
  equal to the real-number comparisons written with `Real.sqrt`.
* Wall-clock measurement (`time.time()`) and the process pool are ambient
  effects: the orchestrators are embedded as the deterministic result
  mappings they produce, without the `"time"` entry.
-/

namespace TempAnalysis

/-- One observation row of the loaded table, as consumed by the analysis
pipeline: the `city`, `timestamp` (only its month is relevant to any claim,
so the month is kept), the `season` column that the input table carries
(`seasonal_analysis` reads it; nothing in the pipeline writes it) and the
`temperature`. -/
structure Row where
  city : String
  month : ℕ
  season : String
  temperature : ℚ
deriving DecidableEq

/-- Output row of `roll_analysis`: the input row plus `roll_mean_30`,
the squared `roll_std_30` (see the header) and `is_roll_anomaly`. -/
structure RollRow extends Row where
  roll_mean_30 : Option ℚ
  roll_var_30 : Option ℚ
  is_roll_anomaly : Bool
deriving DecidableEq

/-- Output row of `seasonal_analysis`: adds `season_mean`, the squared
`season_std` and `is_season_anomaly`. -/
structure SeasonRow extends RollRow where
  season_mean : Option ℚ
  season_var : Option ℚ
  is_season_anomaly : Bool
deriving DecidableEq

/-- Output row of `long_term_trend`: adds the fitted `trend` value. -/
structure TrendRow extends SeasonRow where
  trend : ℚ
deriving DecidableEq

/-- Arithmetic mean of a list of values (`pandas` `mean`). -/
def listMean (xs : List ℚ) : ℚ := xs.sum / (xs.length : ℚ)

/-- Sample variance (`ddof = 1`, the `pandas` default) in the incremental
sum / sum-of-squares form that a windowed implementation maintains. -/
def sampleVarC (xs : List ℚ) : ℚ :=
  ((xs.map (fun x => x ^ 2)).sum - xs.sum ^ 2 / (xs.length : ℚ)) /
    ((xs.length : ℚ) - 1)

/-- The trailing window of width `w` ending at position `i` (inclusive). -/
def windowEnd (xs : List ℚ) (w i : ℕ) : List ℚ :=
  (xs.take (i + 1)).drop (i + 1 - w)

/-- The rolling mean with window and minimum period both `w`, at position
`i` of a city's series: defined only once `w` observations are
available. -/
def rollMeanAt (xs : List ℚ) (w i : ℕ) : Option ℚ :=
  if w ≤ i + 1 then some (listMean (windowEnd xs w i)) else none

/-- The rolling standard deviation with window and minimum period both
`w`, at position `i`, squared.  With fewer than `w` observations, or a
window of width `< 2` (`ddof = 1` needs two values), the result is
`NaN`. -/
def rollVarAt (xs : List ℚ) (w i : ℕ) : Option ℚ :=
  if w ≤ i + 1 ∧ 2 ≤ w then some (sampleVarC (windowEnd xs w i)) else none

/-- The source's anomaly test
`(t > mean + 2*std) | (t < mean - 2*std)` with `NaN` semantics: any
undefined operand makes both comparisons `false`.  The comparison against
`mean ± 2·std` is encoded by the equivalent squared comparison against the
stored variance (`std = √v`, see `outOfBand_iff_real`). -/
def anomalyFlag (t : ℚ) : Option ℚ → Option ℚ → Bool
  | some m, some v =>
      (decide (t > m) && decide ((t - m) ^ 2 > 4 * v)) ||
      (decide (t < m) && decide ((m - t) ^ 2 > 4 * v))
  | _, _ => false

/-- Per-city positional traversal shared by `roll_analysis` and
`long_term_trend`: both assign to each row a value that depends on the
row's ordinal position inside its own city's subsequence (the effect of
`groupby("city")` + index-aligned assignment in the one case and of the
per-city `np.arange` loop in the other).  `prev` is the prefix of rows
already passed. -/
def cityIdxMap (cOf : α → String) (g : ℕ → α → β) : List α → List α → List β
  | _prev, [] => []
  | prev, r :: rest =>
      g ((prev.filter (fun x => cOf x == cOf r)).length) r ::
        cityIdxMap cOf g (prev ++ [r]) rest

/-- The temperatures of city `c` in table order. -/
def cityTemps (df : List Row) (c : String) : List ℚ :=
  (df.filter (fun r => r.city == c)).map (fun r => r.temperature)

/-- The enrichment `roll_analysis` applies to the row of ordinal `i`
inside its city's subsequence. -/
def rollEnrich (df : List Row) (w i : ℕ) (r : Row) : RollRow :=
  { toRow := r
    roll_mean_30 := rollMeanAt (cityTemps df r.city) w i
    roll_var_30 := rollVarAt (cityTemps df r.city) w i
    is_roll_anomaly :=
      anomalyFlag r.temperature (rollMeanAt (cityTemps df r.city) w i)
        (rollVarAt (cityTemps df r.city) w i) }

/-- `roll_analysis`: per-city rolling mean and standard deviation of
width `w` (the source's default is `w = 30`) plus the rolling anomaly
flag. -/
def rollAnalysis (df : List Row) (w : ℕ) : List RollRow :=
  cityIdxMap (fun r => r.city) (rollEnrich df w) [] df

/-- The temperatures of the `(city, season)` group of `c` and `s`, in table
order (`groupby(["city", "season"])["temperature"]`). -/
def groupTemps (df : List RollRow) (c s : String) : List ℚ :=
  (df.filter (fun r => r.city == c && r.season == s)).map
    (fun r => r.temperature)

/-- `seasonal_analysis`: per-`(city, season)` mean and sample standard
deviation, broadcast onto every observation of the group by the
left merge of the source on the `(city, season)` pair, plus the
seasonal anomaly flag.  The group of a row always contains that row, so
the merged mean is always defined; the standard deviation of a group of
fewer than two observations is `NaN` (`ddof = 1`). -/
def seasonEnrich (df : List RollRow) (r : RollRow) : SeasonRow :=
  { toRollRow := r
    season_mean := some (listMean (groupTemps df r.city r.season))
    season_var :=
      if 2 ≤ (groupTemps df r.city r.season).length then
        some (sampleVarC (groupTemps df r.city r.season))
      else none
    is_season_anomaly :=
      anomalyFlag r.temperature
        (some (listMean (groupTemps df r.city r.season)))
        (if 2 ≤ (groupTemps df r.city r.season).length then
          some (sampleVarC (groupTemps df r.city r.season))
        else none) }

def seasonalAnalysis (df : List RollRow) : List SeasonRow :=
  df.map (seasonEnrich df)

/-- `∑ t` over `t = 0, …, n − 1`, as a rational. -/
def natSum (n : ℕ) : ℚ := ((List.range n).map (fun (t : ℕ) => (t : ℚ))).sum

/-- `∑ t²` over `t = 0, …, n − 1`, as a rational. -/
def natSqSum (n : ℕ) : ℚ :=
  ((List.range n).map (fun (t : ℕ) => (t : ℚ) ^ 2)).sum

/-- `∑ t · yₜ` over the positions `t` of the list `ys`. -/
def idxTempSum (ys : List ℚ) : ℚ :=
  (ys.enum.map (fun p => (p.1 : ℚ) * p.2)).sum

/-- `np.polyfit(t, ys, 1)` for `t = 0, …, n − 1`, embedded as the exact
ordinary-least-squares solution of the normal equations,
`(slope, intercept)`.  Rational division is total with `x / 0 = 0`, so the
degenerate case `n < 2` silently produces numbers instead of failing (the
behaviour relevant to the degenerate-city claim). -/
def polyfit1 (ys : List ℚ) : ℚ × ℚ :=
  let n : ℚ := ys.length
  let slope :=
    (n * idxTempSum ys - natSum ys.length * ys.sum) /
      (n * natSqSum ys.length - natSum ys.length ^ 2)
  (slope, (ys.sum - slope * natSum ys.length) / n)

/-- The temperatures of city `c` of a seasonal table, in table order. -/
def cityTempsS (df : List SeasonRow) (c : String) : List ℚ :=
  (df.filter (fun r => r.city == c)).map (fun r => r.temperature)

/-- The enrichment `long_term_trend` applies to the row of ordinal `i`
inside its city's subsequence: the fitted value `slope·i + intercept`. -/
def trendEnrich (df : List SeasonRow) (i : ℕ) (r : SeasonRow) : TrendRow :=
  { toSeasonRow := r
    trend :=
      (polyfit1 (cityTempsS df r.city)).1 * (i : ℚ) +
        (polyfit1 (cityTempsS df r.city)).2 }

/-- `long_term_trend`: for each city, fit a first-degree polynomial over
the ordinal index of the city's observations and store the fitted value at
each observation. -/
def longTermTrend (df : List SeasonRow) : List TrendRow :=
  cityIdxMap (fun r => r.city) (trendEnrich df) [] df

/-- `analyze_city`: filter one city's rows and run the three engines. -/
def analyzeCity (df : List Row) (c : String) : List TrendRow :=
  longTermTrend (seasonalAnalysis
    (rollAnalysis (df.filter (fun r => r.city == c)) 30))

/-- `df["city"].unique()`: the cities in first-appearance order. -/
def uniqueCities (df : List Row) : List String :=
  df.foldl (fun acc r => if acc.contains r.city then acc else acc ++ [r.city]) []

/-- Python-dict insertion (insert-or-update, first-insertion key order). -/
def dictInsert (d : List (String × List TrendRow)) (k : String)
    (v : List TrendRow) : List (String × List TrendRow) :=
  if d.any (fun p => p.1 == k) then
    d.map (fun p => if p.1 == k then (k, v) else p)
  else d ++ [(k, v)]

/-- `sequential_analysis` without its `"time"` entry: loop over the unique
cities accumulating `res[city] = analyze_city(df, city)`. -/
def sequentialAnalysis (df : List Row) : List (String × List TrendRow) :=
  (uniqueCities df).foldl (fun res c => dictInsert res c (analyzeCity df c)) []

/-- `city_wrapper`: the helper mapped over the process pool. -/
def cityWrapper (p : List Row × String) : String × List TrendRow :=
  (p.2, analyzeCity p.1 p.2)

/-- `parallel_analysis` without its `"time"` entry: map `city_wrapper` over
the `(df, city)` task list (the pool's `map` yields results in task order)
and collect them into the result dict. -/
def parallelAnalysis (df : List Row) : List (String × List TrendRow) :=
  (((uniqueCities df).map (fun c => (df, c))).map cityWrapper).foldl
    (fun res p => dictInsert res p.1 p.2) []

/-- `get_season`: the season of a month number. -/
def getSeason (month : ℕ) : String :=
  if month == 3 || month == 4 || month == 5 then "spring"
  else if month == 6 || month == 7 || month == 8 then "summer"
  else if month == 9 || month == 10 || month == 11 then "autumn"
  else "winter"

/-- The record returned by `check_anomaly`. -/
structure CheckResult where
  city : String
  season : String
  temperature : ℚ
  is_anomaly : String
deriving DecidableEq

/-- The source's chained comparison
`lower_lim <= current_temp <= upper_lim` with
`lower_lim = mean - 2*std`, `upper_lim = mean + 2*std` and `NaN`
semantics: if either statistic is `NaN` both comparisons are `false`.
The comparisons against `mean ± 2·std` are encoded by equivalent squared
comparisons against the stored variance (see `withinBand_iff_real`). -/
def withinBand (t : ℚ) : Option ℚ → Option ℚ → Bool
  | some m, some v =>
      (decide (m ≤ t) || decide ((m - t) ^ 2 ≤ 4 * v)) &&
      (decide (t ≤ m) || decide ((t - m) ^ 2 ≤ 4 * v))
  | _, _ => false

/-- `check_anomaly`: look up the first row of the table matching the city
and the current season (`iloc[0]`, an `IndexError` — a `LookupError` — on
an empty selection) and classify the live temperature against
`mean ± 2·std`.  The current date is an ambient input of the source
(`datetime.now()`); its month is passed explicitly here. -/
def checkAnomaly (city : String) (currentTemp : ℚ) (df : List TrendRow)
    (nowMonth : ℕ) : Except String CheckResult :=
  match (df.filter
      (fun r => r.city == city && r.season == getSeason nowMonth)).head? with
  | none => Except.error "IndexError"
  | some stats =>
      Except.ok
        { city := city
          season := getSeason nowMonth
          temperature := currentTemp
          is_anomaly :=
            if withinBand currentTemp stats.season_mean stats.season_var then
              "normal"
            else "anomaly" }

/-- A raw CSV record as `load_data` receives it: three text fields. -/
structure RawRow where
  city : String
  timestamp : String
  temperature : String
deriving DecidableEq

/-- A cell of the loaded table: `read_csv` keeps a column numeric only when
every entry parses as a number; otherwise the column stays textual. -/
inductive CellVal where
  | num (q : ℚ)
  | txt (s : String)
deriving DecidableEq

/-- A row of the table `load_data` returns. -/
structure LoadedRow where
  city : String
  timestamp : ℕ × ℕ × ℕ
  temperature : CellVal
deriving DecidableEq

/-- Split a character list at a separator (the `str.split(sep)`
behaviour used to take a CSV field apart). -/
def splitOnChar (sep : Char) : List Char → List (List Char)
  | [] => [[]]
  | c :: cs =>
      match splitOnChar sep cs, decide (c = sep) with
      | rest, true => [] :: rest
      | [], false => [[c]]
      | g :: gs, false => (c :: g) :: gs

/-- Parse an unsigned decimal numeral. -/
def parseNatChars (cs : List Char) : Option ℕ :=
  if cs ≠ [] ∧ cs.all Char.isDigit then
    some (cs.foldl (fun a c => 10 * a + (c.toNat - 48)) 0)
  else none

/-- Parse an optionally `-`-signed integer numeral. -/
def parseIntChars : List Char → Option ℤ
  | '-' :: rest => (parseNatChars rest).map (fun n => -(n : ℤ))
  | cs => (parseNatChars cs).map (fun n => (n : ℤ))

/-- Parse a decimal numeral (optionally signed, optionally with a
fractional part) the way `read_csv` type inference accepts numbers. -/
def parseDecimal (s : String) : Option ℚ :=
  match splitOnChar '.' s.data with
  | [a] => (parseIntChars a).map (fun z => (z : ℚ))
  | [a, b] =>
      match parseIntChars a, parseNatChars b with
      | some z, some f =>
          some (if a.head? = some '-' then
              (z : ℚ) - (f : ℚ) / ((10 : ℚ) ^ b.length)
            else (z : ℚ) + (f : ℚ) / ((10 : ℚ) ^ b.length))
      | _, _ => none
  | _ => none

/-- Parse an ISO `YYYY-MM-DD` date, the format `pd.to_datetime` receives
in this pipeline; failure models the parse exception of `to_datetime`. -/
def parseDate (s : String) : Option (ℕ × ℕ × ℕ) :=
  match splitOnChar '-' s.data with
  | [y, m, d] =>
      match parseNatChars y, parseNatChars m, parseNatChars d with
      | some yy, some mm, some dd =>
          if 1 ≤ mm ∧ mm ≤ 12 ∧ 1 ≤ dd ∧ dd ≤ 31 then some (yy, mm, dd)
          else none
      | _, _, _ => none
  | _ => none

/-- Map a fallible function over a list, failing on the first failure
(the columnwise `pd.to_datetime` application). -/
def optionMapList (f : α → Option β) : List α → Option (List β)
  | [] => some []
  | a :: l =>
      match f a, optionMapList f l with
      | some b, some bs => some (b :: bs)
      | _, _ => none

/-- Numeric sort key of a parsed date. -/
def dateKey (d : ℕ × ℕ × ℕ) : ℕ := d.1 * 10000 + d.2.1 * 100 + d.2.2

/-- Strict lexicographic comparison of character lists (string order). -/
def charListLt : List Char → List Char → Bool
  | [], [] => false
  | [], _ :: _ => true
  | _ :: _, [] => false
  | a :: as, b :: bs =>
      if a.toNat < b.toNat then true
      else if b.toNat < a.toNat then false
      else charListLt as bs

/-- `sort_values(["city", "timestamp"])` comparison. -/
def rowLe (a b : LoadedRow) : Bool :=
  charListLt a.city.data b.city.data ||
    (a.city == b.city && decide (dateKey a.timestamp ≤ dateKey b.timestamp))

/-- Insert into a `rowLe`-sorted list. -/
def insertSorted (r : LoadedRow) : List LoadedRow → List LoadedRow
  | [] => [r]
  | x :: xs => if rowLe r x then r :: x :: xs else x :: insertSorted r xs

/-- Sort by `(city, timestamp)` ascending. -/
def sortRows (l : List LoadedRow) : List LoadedRow := l.foldr insertSorted []

/-- One temperature cell under `read_csv` type inference: when the whole
column parses numerically (`allNum`) the cell becomes a number, otherwise
the column — every cell of it — stays textual. -/
def loadCell (allNum : Bool) (s : String) : CellVal :=
  if allNum then
    match parseDecimal s with
    | some q => CellVal.num q
    | none => CellVal.txt s
  else CellVal.txt s

/-- `load_data`: `read_csv` (type inference: the temperature column is
numeric only when every entry parses; a single non-numeric entry keeps the
whole column textual, with no error and no row dropped), then
`to_datetime` on the timestamp column (the only parse that can fail),
then the `(city, timestamp)` sort. -/
def loadData (rows : List RawRow) : Except String (List LoadedRow) :=
  match optionMapList
      (fun r => (parseDate r.timestamp).map
        (fun d => LoadedRow.mk r.city d
          (loadCell (rows.all (fun x => (parseDecimal x.temperature).isSome))
            r.temperature))) rows with
  | none => Except.error "ParseError"
  | some l => Except.ok (sortRows l)

/-- The sample (`N − 1` denominator) variance in its defining
mean-deviation form — the formula the specification's sentences state,
to be compared with the incremental form `sampleVarC` a windowed
implementation maintains. -/
def devVar (xs : List ℚ) : ℚ :=
  (xs.map (fun x => (x - listMean xs) ^ 2)).sum / ((xs.length : ℚ) - 1)

/-- Positional map with a running ordinal: the per-city view of
`cityIdxMap` once a single city's rows have been selected. -/
def seqIdxMap (g : ℕ → α → β) : ℕ → List α → List β
  | _, [] => []
  | i, r :: rest => g i r :: seqIdxMap g (i + 1) rest

/-- Modelled from the spec's words, for the refinement comparison of the
sentence "season is derived by the pipeline, not required to be present in
the raw input": the `(city, derived season)` group temperatures, the
season of each observation being computed from its month with the
calendar mapping. -/
def groupTempsByMonth (df : List RollRow) (c s : String) : List ℚ :=
  (df.filter (fun r => r.city == c && getSeason r.month == s)).map
    (fun r => r.temperature)

/-- Modelled from the spec's words: the variant of `seasonEnrich` that
derives the row's season from its month instead of reading the stored
`season` column. -/
def seasonEnrichSpec (df : List RollRow) (r : RollRow) : SeasonRow :=
  { toRollRow :=
      { toRow := { r.toRow with season := getSeason r.month }
        roll_mean_30 := r.roll_mean_30
        roll_var_30 := r.roll_var_30
        is_roll_anomaly := r.is_roll_anomaly }
    season_mean :=
      some (listMean (groupTempsByMonth df r.city (getSeason r.month)))
    season_var :=
      if 2 ≤ (groupTempsByMonth df r.city (getSeason r.month)).length then
        some (sampleVarC (groupTempsByMonth df r.city (getSeason r.month)))
      else none
    is_season_anomaly :=
      anomalyFlag r.temperature
        (some (listMean (groupTempsByMonth df r.city (getSeason r.month))))
        (if 2 ≤ (groupTempsByMonth df r.city (getSeason r.month)).length then
          some (sampleVarC (groupTempsByMonth df r.city (getSeason r.month)))
        else none) }

/-- Modelled from the spec's words: `seasonal_analysis` as the
specification describes it, deriving each observation's season from its
month before grouping. -/
def seasonalAnalysisSpec (df : List RollRow) : List SeasonRow :=
  df.map (seasonEnrichSpec df)

/-- A concrete two-row table for city `"X"`: both rows carry the stored
season `"winter"`, the second row's month is `3` (a spring month under the
calendar mapping). -/
def crossTable : List RollRow :=
  [⟨⟨"X", 1, "winter", 0⟩, none, none, false⟩,
   ⟨⟨"X", 3, "winter", 10⟩, none, none, false⟩]

/-- A one-observation table: city `"A"`, month `1` (winter), `10` degrees. -/
def tinyTable : List Row := [⟨"A", 1, "winter", 10⟩]

/-- A single-observation city, used for the degenerate trend fit. -/
def soloRow : SeasonRow :=
  ⟨⟨⟨"Solo", 1, "winter", 7⟩, none, none, false⟩, some 7, none, false⟩

/-- An enriched row carrying the seasonal profile mean `15`, squared
standard deviation `9` (std `3`), for city `"X"` in winter. -/
def profileRow : TrendRow :=
  ⟨⟨⟨⟨"X", 1, "winter", 10⟩, none, none, false⟩, some 15, some 9, false⟩, 0⟩

/-- The enriched table holding just `profileRow`. -/
def profileTable : List TrendRow := [profileRow]

/-- Raw CSV records whose temperature column contains the non-numeric
entry `"abc"`. -/
def rawBadTemp : List RawRow :=
  [⟨"B", "2020-01-02", "7"⟩, ⟨"A", "2020-01-01", "abc"⟩]

/-- A three-row table interleaving two cities, for the rolling-window
witness at window `2`: city `"A"` has temperatures `1, 2` and city `"B"`
sits between them. -/
def rollTable : List Row :=
  [⟨"A", 1, "winter", 1⟩, ⟨"B", 1, "winter", 100⟩, ⟨"A", 1, "winter", 2⟩]

/-- A two-row city `"L"` whose temperatures follow `2·t + 5` exactly. -/
def linTable : List SeasonRow :=
  [⟨⟨⟨"L", 1, "winter", 5⟩, none, none, false⟩, some 6, none, false⟩,
   ⟨⟨⟨"L", 1, "winter", 7⟩, none, none, false⟩, some 6, none, false⟩]

/-! ### Infrastructure: the per-city traversal seen through a city filter -/

theorem seqIdxMap_length (g : ℕ → α → β) :
    ∀ (i : ℕ) (l : List α), (seqIdxMap g i l).length = l.length
  | _, [] => rfl
  | i, _ :: rest => congrArg Nat.succ (seqIdxMap_length g (i + 1) rest)

theorem seqIdxMap_get (g : ℕ → α → β) (i0 : ℕ) (l : List α) (j : ℕ)
    (h : j < l.length) (h2 : j < (seqIdxMap g i0 l).length) :
    (seqIdxMap g i0 l).get ⟨j, h2⟩ = g (i0 + j) (l.get ⟨j, h⟩) := by
  induction l generalizing i0 j with
  | nil => cases h
  | cons r rest ih =>
      cases j with
      | zero => rfl
      | succ j' =>
          have h' : j' < rest.length := Nat.lt_of_succ_lt_succ h
          have h2' : j' < (seqIdxMap g (i0 + 1) rest).length := by
            rw [seqIdxMap_length]; exact h'
          have harith : i0 + 1 + j' = i0 + (j' + 1) := by omega
          calc (seqIdxMap g i0 (r :: rest)).get ⟨j' + 1, h2⟩
              = (seqIdxMap g (i0 + 1) rest).get ⟨j', h2'⟩ := rfl
            _ = g (i0 + 1 + j') (rest.get ⟨j', h'⟩) := ih (i0 + 1) j' h' h2'
            _ = g (i0 + (j' + 1)) ((r :: rest).get ⟨j' + 1, h⟩) := by
                rw [harith]; rfl

theorem mem_cityIdxMap {cOf : α → String} {g : ℕ → α → β} :
    ∀ {prev l : List α} {b : β}, b ∈ cityIdxMap cOf g prev l →
      ∃ i r, r ∈ l ∧ b = g i r := by
  intro prev l
  induction l generalizing prev with
  | nil => intro b hb; cases hb
  | cons r rest ih =>
      intro b hb
      rw [cityIdxMap] at hb
      cases hb with
      | head => exact ⟨_, r, List.mem_cons_self r rest, rfl⟩
      | tail _ hb =>
          obtain ⟨i, x, hx, hbx⟩ := ih hb
          exact ⟨i, x, List.mem_cons_of_mem r hx, hbx⟩

theorem cityIdxMap_exists_mem {cOf : α → String} {g : ℕ → α → β} :
    ∀ (prev l : List α) (r : α), r ∈ l →
      ∃ i, g i r ∈ cityIdxMap cOf g prev l := by
  intro prev l
  induction l generalizing prev with
  | nil => intro r hr; cases hr
  | cons x rest ih =>
      intro r hr
      rcases List.mem_cons.mp hr with h | h
      · subst h
        exact ⟨(prev.filter (fun a => cOf a == cOf r)).length, by
          rw [cityIdxMap]; exact List.mem_cons_self _ _⟩
      · obtain ⟨i, hi⟩ := ih (prev ++ [x]) r h
        exact ⟨i, by rw [cityIdxMap]; exact List.mem_cons_of_mem _ hi⟩

theorem filter_cityIdxMap (cOf : α → String) (bOf : β → String)
    (g : ℕ → α → β) (c : String) (hg : ∀ i r, bOf (g i r) = cOf r)
    (prev l : List α) :
    (cityIdxMap cOf g prev l).filter (fun b => bOf b == c) =
      seqIdxMap g ((prev.filter (fun x => cOf x == c)).length)
        (l.filter (fun x => cOf x == c)) := by
  induction l generalizing prev with
  | nil => rfl
  | cons r rest ih =>
      by_cases hc : cOf r = c
      · have hpred : (fun x => cOf x == cOf r) = (fun x => cOf x == c) := by
          funext x; rw [hc]
        have hb : ((fun b => bOf b == c)
            (g ((prev.filter (fun x => cOf x == cOf r)).length) r)) = true := by
          simp [hg, hc]
        have hr : ((fun x => cOf x == c) r) = true := by simp [hc]
        rw [cityIdxMap, @List.filter_cons_of_pos _ (fun b => bOf b == c) _ _ hb,
          @List.filter_cons_of_pos _ (fun x => cOf x == c) _ _ hr, seqIdxMap,
          ih (prev ++ [r])]
        congr 2
        · rw [hpred]
        · rw [List.filter_append, List.length_append,
            @List.filter_cons_of_pos _ (fun x => cOf x == c) _ _ hr,
            List.filter_nil]
          rfl
      · have hb : ¬ ((fun b => bOf b == c)
            (g ((prev.filter (fun x => cOf x == cOf r)).length) r)) = true := by
          simp [hg, hc]
        have hr : ¬ ((fun x => cOf x == c) r) = true := by simp [hc]
        rw [cityIdxMap, @List.filter_cons_of_neg _ (fun b => bOf b == c) _ _ hb,
          @List.filter_cons_of_neg _ (fun x => cOf x == c) _ _ hr,
          ih (prev ++ [r]), List.filter_append, List.length_append,
          @List.filter_cons_of_neg _ (fun x => cOf x == c) _ _ hr,
          List.filter_nil, List.length_nil, Nat.add_zero]

theorem cityIdxMap_filter_length (cOf : α → String) (bOf : β → String)
    (g : ℕ → α → β) (c : String) (hg : ∀ i r, bOf (g i r) = cOf r)
    (l : List α) :
    ((cityIdxMap cOf g [] l).filter (fun b => bOf b == c)).length =
      (l.filter (fun x => cOf x == c)).length := by
  rw [filter_cityIdxMap cOf bOf g c hg [] l, seqIdxMap_length]

theorem cityIdxMap_filter_get (cOf : α → String) (bOf : β → String)
    (g : ℕ → α → β) (c : String) (hg : ∀ i r, bOf (g i r) = cOf r)
    (l : List α) (i : ℕ)
    (h : i < ((cityIdxMap cOf g [] l).filter (fun b => bOf b == c)).length) :
    ∃ h2 : i < (l.filter (fun x => cOf x == c)).length,
      ((cityIdxMap cOf g [] l).filter (fun b => bOf b == c)).get ⟨i, h⟩ =
        g i ((l.filter (fun x => cOf x == c)).get ⟨i, h2⟩) ∧
      cOf ((l.filter (fun x => cOf x == c)).get ⟨i, h2⟩) = c := by
  have h2 : i < (l.filter (fun x => cOf x == c)).length := by
    rw [← cityIdxMap_filter_length cOf bOf g c hg l]; exact h
  have hseq : i < (seqIdxMap g ((List.filter (fun x => cOf x == c)
      ([] : List α)).length) (l.filter (fun x => cOf x == c))).length := by
    rw [seqIdxMap_length]; exact h2
  refine ⟨h2, ?_, ?_⟩
  · have hf := filter_cityIdxMap cOf bOf g c hg [] l
    have hcast := List.get_of_eq hf ⟨i, h⟩
    rw [hcast, seqIdxMap_get g _ _ i h2 hseq]
    simp
  · have hmem : (l.filter (fun x => cOf x == c)).get ⟨i, h2⟩ ∈
        l.filter (fun x => cOf x == c) := List.get_mem _ _ _
    have := (List.mem_filter.mp hmem).2
    exact eq_of_beq this

/-! ### Algebraic identities for means and variances -/

theorem sum_sq_sub_eq (μ : ℚ) :
    ∀ xs : List ℚ, (xs.map (fun x => (x - μ) ^ 2)).sum =
      (xs.map (fun x => x ^ 2)).sum - 2 * μ * xs.sum +
        (xs.length : ℚ) * μ ^ 2
  | [] => by simp
  | x :: xs => by
      simp only [List.map_cons, List.sum_cons, sum_sq_sub_eq μ xs,
        List.length_cons]
      push_cast
      ring

theorem devVar_eq_sampleVarC (xs : List ℚ) (hx : xs ≠ []) :
    devVar xs = sampleVarC xs := by
  have hn : (xs.length : ℚ) ≠ 0 :=
    Nat.cast_ne_zero.mpr (List.length_pos.mpr hx).ne'
  unfold devVar sampleVarC listMean
  rw [sum_sq_sub_eq]
  congr 1
  field_simp
  ring

/-! ### The squared encodings of comparisons against `mean ± 2·std` -/

theorem outOfBand_iff_real (t m v : ℚ) (hv : 0 ≤ v) :
    anomalyFlag t (some m) (some v) = true ↔
      ((t : ℝ) > (m : ℝ) + 2 * Real.sqrt (v : ℝ) ∨
        (t : ℝ) < (m : ℝ) - 2 * Real.sqrt (v : ℝ)) := by
  have hv' : (0 : ℝ) ≤ (v : ℝ) := by exact_mod_cast hv
  have hs : 0 ≤ Real.sqrt (v : ℝ) := Real.sqrt_nonneg _
  have hsq : Real.sqrt (v : ℝ) ^ 2 = (v : ℝ) := Real.sq_sqrt hv'
  simp only [anomalyFlag, Bool.or_eq_true, Bool.and_eq_true,
    decide_eq_true_eq]
  constructor
  · rintro (⟨h1, h2⟩ | ⟨h1, h2⟩)
    · left
      have h1' : (m : ℝ) < (t : ℝ) := by exact_mod_cast h1
      have h2' : (4 : ℝ) * (v : ℝ) < ((t : ℝ) - (m : ℝ)) ^ 2 := by
        exact_mod_cast h2
      nlinarith [hs, hsq]
    · right
      have h1' : (t : ℝ) < (m : ℝ) := by exact_mod_cast h1
      have h2' : (4 : ℝ) * (v : ℝ) < ((m : ℝ) - (t : ℝ)) ^ 2 := by
        exact_mod_cast h2
      nlinarith [hs, hsq]
  · rintro (h | h)
    · left
      have h1' : (m : ℝ) < (t : ℝ) := by nlinarith [hs]
      have h2' : (4 : ℝ) * (v : ℝ) < ((t : ℝ) - (m : ℝ)) ^ 2 := by
        nlinarith [hs, hsq]
      exact ⟨by exact_mod_cast h1', by exact_mod_cast h2'⟩
    · right
      have h1' : (t : ℝ) < (m : ℝ) := by nlinarith [hs]
      have h2' : (4 : ℝ) * (v : ℝ) < ((m : ℝ) - (t : ℝ)) ^ 2 := by
        nlinarith [hs, hsq]
      exact ⟨by exact_mod_cast h1', by exact_mod_cast h2'⟩

theorem withinBand_iff_real (t m v : ℚ) (hv : 0 ≤ v) :
    withinBand t (some m) (some v) = true ↔
      ((m : ℝ) - 2 * Real.sqrt (v : ℝ) ≤ (t : ℝ) ∧
        (t : ℝ) ≤ (m : ℝ) + 2 * Real.sqrt (v : ℝ)) := by
  have hv' : (0 : ℝ) ≤ (v : ℝ) := by exact_mod_cast hv
  have hs : 0 ≤ Real.sqrt (v : ℝ) := Real.sqrt_nonneg _
  have hsq : Real.sqrt (v : ℝ) ^ 2 = (v : ℝ) := Real.sq_sqrt hv'
  simp only [withinBand, Bool.and_eq_true, Bool.or_eq_true,
    decide_eq_true_eq]
  constructor
  · rintro ⟨h1, h2⟩
    constructor
    · rcases h1 with h | h
      · have h' : (m : ℝ) ≤ (t : ℝ) := by exact_mod_cast h
        nlinarith [hs]
      · have h' : ((m : ℝ) - (t : ℝ)) ^ 2 ≤ 4 * (v : ℝ) := by exact_mod_cast h
        nlinarith [hs, hsq, sq_nonneg ((m : ℝ) - (t : ℝ) - 2 * Real.sqrt (v : ℝ))]
    · rcases h2 with h | h
      · have h' : (t : ℝ) ≤ (m : ℝ) := by exact_mod_cast h
        nlinarith [hs]
      · have h' : ((t : ℝ) - (m : ℝ)) ^ 2 ≤ 4 * (v : ℝ) := by exact_mod_cast h
        nlinarith [hs, hsq, sq_nonneg ((t : ℝ) - (m : ℝ) - 2 * Real.sqrt (v : ℝ))]
  · rintro ⟨h1, h2⟩
    constructor
    · by_cases hmt : m ≤ t
      · exact Or.inl hmt
      · right
        push_neg at hmt
        have hmt' : (t : ℝ) < (m : ℝ) := by exact_mod_cast hmt
        have h' : ((m : ℝ) - (t : ℝ)) ^ 2 ≤ 4 * (v : ℝ) := by
          nlinarith [hs, hsq]
        exact_mod_cast h'
    · by_cases htm : t ≤ m
      · exact Or.inl htm
      · right
        push_neg at htm
        have htm' : (m : ℝ) < (t : ℝ) := by exact_mod_cast htm
        have h' : ((t : ℝ) - (m : ℝ)) ^ 2 ≤ 4 * (v : ℝ) := by
          nlinarith [hs, hsq]
        exact_mod_cast h'

/-- The rational form of `withinBand_iff_real` when the stored variance is
a perfect square `s ^ 2` with `s ≥ 0` (so `std = s`). -/
theorem withinBand_sq (t m s : ℚ) (hs : 0 ≤ s) :
    withinBand t (some m) (some (s ^ 2)) = true ↔
      (m - 2 * s ≤ t ∧ t ≤ m + 2 * s) := by
  simp only [withinBand, Bool.and_eq_true, Bool.or_eq_true,
    decide_eq_true_eq]
  constructor
  · rintro ⟨h1, h2⟩
    constructor
    · rcases h1 with h | h
      · nlinarith
      · nlinarith [sq_nonneg (m - t - 2 * s)]
    · rcases h2 with h | h
      · nlinarith
      · nlinarith [sq_nonneg (t - m - 2 * s)]
  · rintro ⟨h1, h2⟩
    constructor
    · by_cases hmt : m ≤ t
      · exact Or.inl hmt
      · push_neg at hmt
        exact Or.inr (by nlinarith)
    · by_cases htm : t ≤ m
      · exact Or.inl htm
      · push_neg at htm
        exact Or.inr (by nlinarith)

/-! ### Claim C1 -/

/-- Claim C1: for every input table, `sequential_analysis` and
`parallel_analysis` produce the same mapping from city to enriched
per-city table — the same cities and, for each city, an identical
enriched table.  The pool's `map` collects one result per city in task
order, so even the key order coincides; only the `"time"` entry of the
source (an ambient wall-clock effect, not modelled) can differ. -/
theorem sequential_parallel_equiv (df : List Row) :
    parallelAnalysis df = sequentialAnalysis df := by
  unfold parallelAnalysis sequentialAnalysis
  rw [List.map_map, List.foldl_map]
  rfl

/-! ### Claim C2 -/

theorem windowEnd_length (xs : List ℚ) (w i : ℕ) (hwi : w ≤ i + 1)
    (hi : i < xs.length) : (windowEnd xs w i).length = w := by
  unfold windowEnd
  rw [List.length_drop, List.length_take]
  omega

/-- Claim C2: for every city whose subsequence has at least `w`
observations (`w = 30` in the source's default call), `roll_analysis`
leaves `roll_mean_30` and `roll_std_30` undefined for the first `w − 1`
observations of that city; at the `w`-th observation `roll_mean_30` is the
arithmetic mean of the city's first `w` temperatures; wherever defined,
the squared `roll_std_30` equals the sample (`N − 1` denominator) variance
of the trailing window, the window being drawn from that city's
temperatures only (no window spans two cities). -/
theorem roll_stats_correct (df : List Row) (c : String) (w : ℕ)
    (hw : 2 ≤ w) (hlen : w ≤ (cityTemps df c).length) :
    (((rollAnalysis df w).filter (fun r => r.city == c)).length =
        (cityTemps df c).length) ∧
    (∀ i, i + 1 < w →
      ∀ h : i < ((rollAnalysis df w).filter (fun r => r.city == c)).length,
        ((((rollAnalysis df w).filter (fun r => r.city == c)).get
            ⟨i, h⟩).roll_mean_30 = none ∧
          (((rollAnalysis df w).filter (fun r => r.city == c)).get
            ⟨i, h⟩).roll_var_30 = none)) ∧
    (∀ h : w - 1 < ((rollAnalysis df w).filter (fun r => r.city == c)).length,
      (((rollAnalysis df w).filter (fun r => r.city == c)).get
          ⟨w - 1, h⟩).roll_mean_30 =
        some (((cityTemps df c).take w).sum / (w : ℚ))) ∧
    (∀ i, w ≤ i + 1 →
      ∀ h : i < ((rollAnalysis df w).filter (fun r => r.city == c)).length,
        (((rollAnalysis df w).filter (fun r => r.city == c)).get
            ⟨i, h⟩).roll_var_30 =
          some (devVar (windowEnd (cityTemps df c) w i))) := by
  have hbc : ∀ (i : ℕ) (r : Row), (rollEnrich df w i r).city = r.city :=
    fun _ _ => rfl
  have hL := cityIdxMap_filter_length (fun r : Row => r.city)
    (fun b : RollRow => b.city) (rollEnrich df w) c hbc df
  have htl : (cityTemps df c).length =
      (df.filter (fun r => r.city == c)).length := by
    rw [cityTemps, List.length_map]
  refine ⟨?_, ?_, ?_, ?_⟩
  · rw [rollAnalysis, hL, htl]
  · intro i hi h
    obtain ⟨h2, hget, hcity⟩ := cityIdxMap_filter_get (fun r : Row => r.city)
      (fun b : RollRow => b.city) (rollEnrich df w) c hbc df i h
    unfold rollAnalysis at h ⊢
    rw [hget]
    constructor
    · show rollMeanAt (cityTemps df _) w i = none
      rw [hcity, rollMeanAt, if_neg (by omega)]
    · show rollVarAt (cityTemps df _) w i = none
      rw [hcity, rollVarAt, if_neg (by omega)]
  · intro h
    obtain ⟨h2, hget, hcity⟩ := cityIdxMap_filter_get (fun r : Row => r.city)
      (fun b : RollRow => b.city) (rollEnrich df w) c hbc df (w - 1) h
    unfold rollAnalysis at h ⊢
    rw [hget]
    show rollMeanAt (cityTemps df _) w (w - 1) =
      some (((cityTemps df c).take w).sum / (w : ℚ))
    rw [hcity, rollMeanAt, if_pos (by omega)]
    have hw1 : w - 1 + 1 = w := by omega
    have hwin : windowEnd (cityTemps df c) w (w - 1) =
        (cityTemps df c).take w := by
      unfold windowEnd
      rw [hw1, Nat.sub_self, List.drop_zero]
    rw [hwin, listMean, List.length_take, Nat.min_eq_left hlen]
  · intro i hwi h
    obtain ⟨h2, hget, hcity⟩ := cityIdxMap_filter_get (fun r : Row => r.city)
      (fun b : RollRow => b.city) (rollEnrich df w) c hbc df i h
    unfold rollAnalysis at h ⊢
    rw [hget]
    show rollVarAt (cityTemps df _) w i =
      some (devVar (windowEnd (cityTemps df c) w i))
    rw [hcity, rollVarAt, if_pos ⟨hwi, hw⟩]
    have hi : i < (cityTemps df c).length := by
      rw [htl]; rw [hL] at h; exact h
    have hwl : (windowEnd (cityTemps df c) w i).length = w :=
      windowEnd_length _ w i hwi hi
    have hne : windowEnd (cityTemps df c) w i ≠ [] := by
      apply List.length_pos.mp
      rw [hwl]; omega
    rw [devVar_eq_sampleVarC _ hne]

/-! ### Claim C5 -/

theorem get_map' (f : α → γ) (l : List α) (j : ℕ)
    (h1 : j < (l.map f).length) (h2 : j < l.length) :
    (l.map f).get ⟨j, h1⟩ = f (l.get ⟨j, h2⟩) := by
  simp [List.get_eq_getElem, List.getElem_map]

theorem natSum_eq (n : ℕ) : natSum n = (n : ℚ) * ((n : ℚ) - 1) / 2 := by
  induction n with
  | zero => simp [natSum]
  | succ m ih =>
      rw [natSum, List.range_succ, List.map_append, List.sum_append]
      rw [natSum] at ih
      simp only [List.map_cons, List.map_nil, List.sum_cons, List.sum_nil]
      rw [ih]
      push_cast
      ring

theorem natSqSum_eq (n : ℕ) :
    natSqSum n = (n : ℚ) * ((n : ℚ) - 1) * (2 * (n : ℚ) - 1) / 6 := by
  induction n with
  | zero => simp [natSqSum]
  | succ m ih =>
      rw [natSqSum, List.range_succ, List.map_append, List.sum_append]
      rw [natSqSum] at ih
      simp only [List.map_cons, List.map_nil, List.sum_cons, List.sum_nil]
      rw [ih]
      push_cast
      ring

theorem enumFrom_weighted_sum (l : List ℚ) : ∀ k : ℕ,
    ((l.enumFrom k).map (fun p => (p.1 : ℚ) * p.2)).sum =
      ((l.enumFrom 0).map (fun p => (p.1 : ℚ) * p.2)).sum + (k : ℚ) * l.sum := by
  induction l with
  | nil => intro k; simp [List.enumFrom]
  | cons y t ih =>
      intro k
      rw [List.enumFrom_cons, List.map_cons, List.sum_cons, ih (k + 1),
        List.enumFrom_cons, List.map_cons, List.sum_cons, ih 1,
        List.sum_cons]
      push_cast
      ring

theorem idxTempSum_cons (y : ℚ) (t : List ℚ) :
    idxTempSum (y :: t) = idxTempSum t + t.sum := by
  have h := enumFrom_weighted_sum t 1
  unfold idxTempSum
  rw [show (y :: t).enum = (0, y) :: t.enumFrom 1 from rfl,
    show t.enum = t.enumFrom 0 from rfl, List.map_cons, List.sum_cons, h]
  push_cast
  ring

theorem linear_sums : ∀ (ys : List ℚ) (a b : ℚ),
    (∀ i, ∀ h : i < ys.length, ys.get ⟨i, h⟩ = a * (i : ℚ) + b) →
      ys.sum = a * natSum ys.length + b * (ys.length : ℚ) ∧
      idxTempSum ys = a * natSqSum ys.length + b * natSum ys.length := by
  intro ys
  induction ys with
  | nil =>
      intro a b _
      constructor <;> simp [natSum, natSqSum, idxTempSum]
  | cons y t ih =>
      intro a b hlin
      have hy : y = b := by
        have := hlin 0 (by simp)
        simpa using this
      have hlin' : ∀ i, ∀ h : i < t.length,
          t.get ⟨i, h⟩ = a * (i : ℚ) + (a + b) := by
        intro i h
        have h2 : i + 1 < (y :: t).length := by
          simpa using Nat.succ_lt_succ h
        have hstep := hlin (i + 1) h2
        calc t.get ⟨i, h⟩ = (y :: t).get ⟨i + 1, h2⟩ := rfl
          _ = a * ((i : ℚ) + 1) + b := by rw [hstep]; push_cast; ring
          _ = a * (i : ℚ) + (a + b) := by ring
      obtain ⟨hsum, hidx⟩ := ih a (a + b) hlin'
      constructor
      · rw [List.sum_cons, hy, hsum, List.length_cons, natSum_eq, natSum_eq]
        push_cast
        ring
      · rw [idxTempSum_cons, hidx, hsum, List.length_cons, natSum_eq,
          natSum_eq, natSqSum_eq, natSqSum_eq]
        push_cast
        ring

theorem polyfit1_linear (ys : List ℚ) (hn2 : 2 ≤ ys.length)
    (hlin : ∀ i, ∀ h : i < ys.length, ys.get ⟨i, h⟩ = 2 * (i : ℚ) + 5) :
    polyfit1 ys = (2, 5) := by
  obtain ⟨hsum, hidx⟩ := linear_sums ys 2 5 hlin
  have hn : (2 : ℚ) ≤ (ys.length : ℚ) := by exact_mod_cast hn2
  have hn0 : (ys.length : ℚ) ≠ 0 := by
    intro h0; rw [h0] at hn; norm_num at hn
  have hD : (ys.length : ℚ) * natSqSum ys.length - natSum ys.length ^ 2 =
      ((ys.length : ℚ)) ^ 2 * ((ys.length : ℚ) - 1) *
        ((ys.length : ℚ) + 1) / 12 := by
    rw [natSum_eq, natSqSum_eq]; ring
  have hpos : 0 < ((ys.length : ℚ)) ^ 2 * ((ys.length : ℚ) - 1) *
      ((ys.length : ℚ) + 1) := by
    have h1 : (0 : ℚ) < (ys.length : ℚ) - 1 := by linarith
    have h2 : (0 : ℚ) < (ys.length : ℚ) + 1 := by linarith
    have h3 : (0 : ℚ) < ((ys.length : ℚ)) ^ 2 :=
      pow_pos (by linarith) 2
    exact mul_pos (mul_pos h3 h1) h2
  have hDne : (ys.length : ℚ) * natSqSum ys.length -
      natSum ys.length ^ 2 ≠ 0 := by
    rw [hD]; exact div_ne_zero (ne_of_gt hpos) (by norm_num)
  have hnum : (ys.length : ℚ) * idxTempSum ys - natSum ys.length * ys.sum =
      2 * ((ys.length : ℚ) * natSqSum ys.length - natSum ys.length ^ 2) := by
    rw [hsum, hidx]; ring
  have hslope : ((ys.length : ℚ) * idxTempSum ys -
      natSum ys.length * ys.sum) /
      ((ys.length : ℚ) * natSqSum ys.length - natSum ys.length ^ 2) = 2 := by
    rw [hnum, mul_div_assoc, div_self hDne, mul_one]
  have hic0 : ys.sum - 2 * natSum ys.length = 5 * (ys.length : ℚ) := by
    rw [hsum]; ring
  simp only [polyfit1]
  rw [hslope, hic0, mul_div_assoc, div_self hn0, mul_one]

/-- Claim C5: `long_term_trend` fits an ordinary-least-squares line over
the zero-based ordinal index of each city's subsequence and stores the
fitted value `slope·t + intercept` in `trend` at every observation; for a
city whose temperatures satisfy `temperature = 2·t + 5` exactly (and with
at least two observations so the fit is determined), the fit is slope `2`
and intercept `5` — exact in rational arithmetic, hence within
floating-point tolerance — and `trend` equals `temperature` at every
observation. -/
theorem trend_ols_linear (df : List SeasonRow) (c : String) :
    (∀ j, ∀ h : j < ((longTermTrend df).filter
        (fun r => r.city == c)).length,
      (((longTermTrend df).filter (fun r => r.city == c)).get
          ⟨j, h⟩).trend =
        (polyfit1 (cityTempsS df c)).1 * (j : ℚ) +
          (polyfit1 (cityTempsS df c)).2) ∧
    ((2 ≤ (cityTempsS df c).length ∧
      ∀ i, ∀ h : i < (cityTempsS df c).length,
        (cityTempsS df c).get ⟨i, h⟩ = 2 * (i : ℚ) + 5) →
      polyfit1 (cityTempsS df c) = (2, 5) ∧
      ∀ j, ∀ h : j < ((longTermTrend df).filter
          (fun r => r.city == c)).length,
        (((longTermTrend df).filter (fun r => r.city == c)).get
            ⟨j, h⟩).trend =
          (((longTermTrend df).filter (fun r => r.city == c)).get
            ⟨j, h⟩).temperature) := by
  have hbc : ∀ (i : ℕ) (r : SeasonRow), (trendEnrich df i r).city = r.city :=
    fun _ _ => rfl
  constructor
  · intro j h
    obtain ⟨h2, hget, hcity⟩ := cityIdxMap_filter_get
      (fun r : SeasonRow => r.city) (fun b : TrendRow => b.city)
      (trendEnrich df) c hbc df j h
    unfold longTermTrend at h ⊢
    rw [hget]
    show (polyfit1 (cityTempsS df _)).1 * (j : ℚ) +
      (polyfit1 (cityTempsS df _)).2 = _
    rw [hcity]
  · rintro ⟨hn2, hlin⟩
    have hfit : polyfit1 (cityTempsS df c) = (2, 5) :=
      polyfit1_linear _ hn2 hlin
    refine ⟨hfit, ?_⟩
    intro j h
    obtain ⟨h2, hget, hcity⟩ := cityIdxMap_filter_get
      (fun r : SeasonRow => r.city) (fun b : TrendRow => b.city)
      (trendEnrich df) c hbc df j h
    unfold longTermTrend at h ⊢
    rw [hget]
    have hflt : j < (cityTempsS df c).length := by
      rw [cityTempsS, List.length_map]; exact h2
    have htemp : (cityTempsS df c).get ⟨j, hflt⟩ =
        ((df.filter (fun r => r.city == c)).get ⟨j, h2⟩).temperature :=
      get_map' _ _ _ _ _
    show (polyfit1 (cityTempsS df _)).1 * (j : ℚ) +
      (polyfit1 (cityTempsS df _)).2 =
      ((df.filter (fun r => r.city == c)).get ⟨j, h2⟩).temperature
    rw [hcity, hfit, ← htemp, hlin j hflt]

/-! ### Claim C3 -/

/-- Claim C3, counterexample: `seasonal_analysis` does not derive the
season from the month.  On `crossTable` the row with month `3` (a spring
month) keeps and is grouped by its stored `"winter"` season, so the
engine's output differs from the specified month-deriving variant. -/
theorem seasonal_season_not_derived :
    ((seasonalAnalysis crossTable).get ⟨1, by decide⟩).season = "winter" ∧
    ((seasonalAnalysisSpec crossTable).get ⟨1, by decide⟩).season =
      "spring" ∧
    seasonalAnalysis crossTable ≠ seasonalAnalysisSpec crossTable := by
  have h1 : ((seasonalAnalysis crossTable).get ⟨1, by decide⟩).season =
      "winter" := rfl
  have h2 : ((seasonalAnalysisSpec crossTable).get ⟨1, by decide⟩).season =
      "spring" := rfl
  refine ⟨h1, h2, ?_⟩
  intro heq
  have hg := List.get_of_eq heq ⟨1, by decide⟩
  have hcontra : ("winter" : String) = "spring" := by
    rw [← h1, hg, h2]
  exact absurd hcontra (by decide)

/-- Claim C3, amended: `get_season` implements the fixed calendar mapping
months `{3,4,5} → spring`, `{6,7,8} → summer`, `{9,10,11} → autumn`,
`{12,1,2} → winter`, but the pipeline applies it only to the current date
in `check_anomaly`; `seasonal_analysis` groups by the `season` column that
must already be present in its input, computing the per-`(city, season)`
mean and sample standard deviation and broadcasting them onto every
observation of the group. -/
theorem seasonal_stats_stored_season :
    (∀ m : ℕ, 1 ≤ m → m ≤ 12 →
      ((getSeason m = "spring" ↔ (m = 3 ∨ m = 4 ∨ m = 5)) ∧
        (getSeason m = "summer" ↔ (m = 6 ∨ m = 7 ∨ m = 8)) ∧
        (getSeason m = "autumn" ↔ (m = 9 ∨ m = 10 ∨ m = 11)) ∧
        (getSeason m = "winter" ↔ (m = 12 ∨ m = 1 ∨ m = 2)))) ∧
    (∀ (df : List RollRow) (i : ℕ)
        (h : i < (seasonalAnalysis df).length) (h2 : i < df.length),
      ((seasonalAnalysis df).get ⟨i, h⟩).city = (df.get ⟨i, h2⟩).city ∧
      ((seasonalAnalysis df).get ⟨i, h⟩).season = (df.get ⟨i, h2⟩).season ∧
      ((seasonalAnalysis df).get ⟨i, h⟩).season_mean =
        some (listMean (groupTemps df (df.get ⟨i, h2⟩).city
          (df.get ⟨i, h2⟩).season)) ∧
      (2 ≤ (groupTemps df (df.get ⟨i, h2⟩).city
          (df.get ⟨i, h2⟩).season).length →
        ((seasonalAnalysis df).get ⟨i, h⟩).season_var =
          some (devVar (groupTemps df (df.get ⟨i, h2⟩).city
            (df.get ⟨i, h2⟩).season))) ∧
      ((groupTemps df (df.get ⟨i, h2⟩).city
          (df.get ⟨i, h2⟩).season).length < 2 →
        ((seasonalAnalysis df).get ⟨i, h⟩).season_var = none)) := by
  constructor
  · intro m h1 h2
    interval_cases m <;> exact (by decide)
  · intro df i h h2
    have hg : (seasonalAnalysis df).get ⟨i, h⟩ =
        seasonEnrich df (df.get ⟨i, h2⟩) :=
      get_map' (seasonEnrich df) df i h h2
    rw [hg]
    refine ⟨rfl, rfl, rfl, ?_, ?_⟩
    · intro hlen
      show (if 2 ≤ (groupTemps df _ _).length then _ else _) = _
      rw [if_pos hlen, devVar_eq_sampleVarC]
      apply List.length_pos.mp
      omega
    · intro hlen
      show (if 2 ≤ (groupTemps df _ _).length then _ else _) = _
      rw [if_neg (by omega)]

/-- Witness for `seasonal_stats_stored_season` at month `4` and at row `0`
of `crossTable`. -/
theorem seasonal_stats_stored_season_witness :
    (getSeason 4 = "spring" ↔ (4 = 3 ∨ 4 = 4 ∨ 4 = 5)) ∧
    ((seasonalAnalysis crossTable).get ⟨0, by decide⟩).season_mean =
      some (listMean (groupTemps crossTable "X" "winter")) := by
  constructor
  · exact (seasonal_stats_stored_season.1 4 (by decide) (by decide)).1
  · exact (seasonal_stats_stored_season.2 crossTable 0 (by decide)
      (by decide)).2.2.1

/-! ### Claim C4 -/

theorem anomalyFlag_none_left (t : ℚ) (v : Option ℚ) :
    anomalyFlag t none v = false := by cases v <;> rfl

theorem anomalyFlag_none_right (t : ℚ) (m : Option ℚ) :
    anomalyFlag t m none = false := by cases m <;> rfl

theorem withinBand_none_right (t : ℚ) (m : Option ℚ) :
    withinBand t m none = false := by cases m <;> rfl

/-- Claim C4: on the enriched table, `is_roll_anomaly` and
`is_season_anomaly` are total booleans (the comparisons of the source
yield `False` on `NaN` operands, never an error), and each flag is `false`
on every row whose statistics are undefined: rows whose rolling mean or
standard deviation is `NaN`, and rows whose `(city, season)` group holds
fewer than two observations. -/
theorem anomaly_flags_total (df : List Row) (w : ℕ) :
    ∀ r, r ∈ seasonalAnalysis (rollAnalysis df w) →
      (r.is_roll_anomaly = true ∨ r.is_roll_anomaly = false) ∧
      (r.is_season_anomaly = true ∨ r.is_season_anomaly = false) ∧
      ((r.roll_mean_30 = none ∨ r.roll_var_30 = none) →
        r.is_roll_anomaly = false) ∧
      ((groupTemps (rollAnalysis df w) r.city r.season).length < 2 →
        r.is_season_anomaly = false) := by
  intro r hr
  obtain ⟨x, hx, hfx⟩ := List.mem_map.mp hr
  subst hfx
  obtain ⟨i, r0, _, hx0⟩ := mem_cityIdxMap hx
  subst hx0
  refine ⟨?_, ?_, ?_, ?_⟩
  · cases h : (seasonEnrich (rollAnalysis df w)
        (rollEnrich df w i r0)).is_roll_anomaly
    · exact Or.inr rfl
    · exact Or.inl rfl
  · cases h : (seasonEnrich (rollAnalysis df w)
        (rollEnrich df w i r0)).is_season_anomaly
    · exact Or.inr rfl
    · exact Or.inl rfl
  · intro hnone
    show anomalyFlag r0.temperature (rollMeanAt (cityTemps df r0.city) w i)
      (rollVarAt (cityTemps df r0.city) w i) = false
    rcases hnone with hm | hv
    · have hm' : rollMeanAt (cityTemps df r0.city) w i = none := hm
      rw [hm', anomalyFlag_none_left]
    · have hv' : rollVarAt (cityTemps df r0.city) w i = none := hv
      rw [hv', anomalyFlag_none_right]
  · intro hlen
    have hlen' : (groupTemps (rollAnalysis df w) (rollEnrich df w i r0).city
        (rollEnrich df w i r0).season).length < 2 := hlen
    show anomalyFlag r0.temperature _ _ = false
    rw [if_neg (by omega)]
    exact anomalyFlag_none_right _ _

/-- Witness for `anomaly_flags_total`: the single observation of
`tinyTable` has both flags `false` (its rolling statistics are undefined
at window `30` and its seasonal group has one member). -/
theorem anomaly_flags_total_witness :
    ((seasonalAnalysis (rollAnalysis tinyTable 30)).get
        ⟨0, by decide⟩).is_roll_anomaly = false ∧
    ((seasonalAnalysis (rollAnalysis tinyTable 30)).get
        ⟨0, by decide⟩).is_season_anomaly = false := by
  have hmem := List.get_mem (seasonalAnalysis (rollAnalysis tinyTable 30))
    0 (by decide)
  have h := anomaly_flags_total tinyTable 30 _ hmem
  exact ⟨h.2.2.1 (Or.inl rfl), h.2.2.2 (by decide)⟩

/-! ### Claims C7 and C8 -/

/-- Claim C7: for a profile row with defined mean and standard deviation
(`std = s ≥ 0`, stored squared), `check_anomaly` classifies a live
temperature as `"normal"` exactly when
`mean − 2·std ≤ t ≤ mean + 2·std` — bounds inclusive — and as
`"anomaly"` otherwise, returning the record with the city, the current
season, the temperature and the status. -/
theorem check_anomaly_inclusive_band (city : String) (t : ℚ)
    (df : List TrendRow) (nowMonth : ℕ) (stats : TrendRow) (m s : ℚ)
    (hh : (df.filter (fun r => r.city == city &&
        r.season == getSeason nowMonth)).head? = some stats)
    (hm : stats.season_mean = some m) (hv : stats.season_var = some (s ^ 2))
    (hs : 0 ≤ s) :
    checkAnomaly city t df nowMonth = Except.ok
      { city := city, season := getSeason nowMonth, temperature := t,
        is_anomaly := if m - 2 * s ≤ t ∧ t ≤ m + 2 * s then "normal"
          else "anomaly" } := by
  unfold checkAnomaly
  rw [hh]
  dsimp only
  rw [hm, hv]
  by_cases hband : m - 2 * s ≤ t ∧ t ≤ m + 2 * s
  · have hb : withinBand t (some m) (some (s ^ 2)) = true :=
      (withinBand_sq t m s hs).mpr hband
    rw [hb, if_pos hband]
    rfl
  · have hb : withinBand t (some m) (some (s ^ 2)) = false := by
      cases hwb : withinBand t (some m) (some (s ^ 2))
      · rfl
      · exact absurd ((withinBand_sq t m s hs).mp hwb) hband
    rw [hb, if_neg hband]
    rfl

/-- Witness for `check_anomaly_inclusive_band` on `profileTable`
(mean `15`, std `3`, now-month `1`, winter): `21` is `"normal"`
(inclusive boundary) and `21.01` is `"anomaly"`. -/
theorem check_anomaly_inclusive_band_witness :
    checkAnomaly "X" 21 profileTable 1 = Except.ok
      { city := "X", season := "winter", temperature := 21,
        is_anomaly := "normal" } ∧
    checkAnomaly "X" (2101 / 100) profileTable 1 = Except.ok
      { city := "X", season := "winter", temperature := 2101 / 100,
        is_anomaly := "anomaly" } := by
  constructor
  · have h := check_anomaly_inclusive_band "X" 21 profileTable 1 profileRow
      15 3 rfl rfl (by show some (9 : ℚ) = some ((3 : ℚ) ^ 2); norm_num)
      (by norm_num)
    rw [h, if_pos (by norm_num)]
    rfl
  · have h := check_anomaly_inclusive_band "X" (2101 / 100) profileTable 1
      profileRow 15 3 rfl rfl
      (by show some (9 : ℚ) = some ((3 : ℚ) ^ 2); norm_num) (by norm_num)
    rw [h, if_neg (by norm_num)]
    rfl

/-- Claim C8: when the enriched table holds no observation of the city in
the current season, `check_anomaly` fails (the `iloc[0]` of an empty
selection raises `IndexError`, a `LookupError`) instead of returning a
classification. -/
theorem check_anomaly_missing (city : String) (t : ℚ) (df : List TrendRow)
    (nowMonth : ℕ)
    (h : df.filter (fun r => r.city == city &&
        r.season == getSeason nowMonth) = []) :
    checkAnomaly city t df nowMonth = Except.error "IndexError" := by
  unfold checkAnomaly
  rw [h]
  rfl

/-- Witness for `check_anomaly_missing`: city `"Y"` has no winter
observations in `profileTable`. -/
theorem check_anomaly_missing_witness :
    checkAnomaly "Y" 5 profileTable 1 = Except.error "IndexError" :=
  check_anomaly_missing "Y" 5 profileTable 1 rfl

/-! ### Claim C10 -/

theorem filter_mem_ne_nil {p : α → Bool} {l : List α} {a : α}
    (ha : a ∈ l) (hpa : p a = true) : l.filter p ≠ [] := by
  intro hnil
  have hmem : a ∈ l.filter p := List.mem_filter.mpr ⟨ha, hpa⟩
  rw [hnil] at hmem
  cases hmem

theorem trend_preserves_mem_filter (t2 : List SeasonRow) (c s : String) :
    ∀ b ∈ (longTermTrend t2).filter
        (fun r => r.city == c && r.season == s),
      ∃ x ∈ t2, (x.city == c && x.season == s) = true ∧
        b.season_var = x.season_var ∧ b.season_mean = x.season_mean := by
  intro b hb
  have hb1 := (List.mem_filter.mp hb).1
  have hb2 := (List.mem_filter.mp hb).2
  obtain ⟨i, x, hx, hbx⟩ := mem_cityIdxMap hb1
  subst hbx
  exact ⟨x, hx, hb2, rfl, rfl⟩

/-- Claim C10 (implicit): when the `(city, current season)` group of the
history holds exactly one observation, its `season_std` is `NaN`
(`ddof = 1` of a single value), so `check_anomaly` does not fail and
classifies every live temperature as `"anomaly"`: both bound comparisons
against `NaN` are false — the opposite of the pipeline's false-flag
(non-anomalous) default for undefined deviations. -/
theorem singleton_group_always_anomaly (df : List Row) (c : String)
    (nowMonth : ℕ) (t : ℚ)
    (hgrp : (groupTemps (rollAnalysis df 30) c
        (getSeason nowMonth)).length = 1) :
    checkAnomaly c t
        (longTermTrend (seasonalAnalysis (rollAnalysis df 30))) nowMonth =
      Except.ok
        { city := c, season := getSeason nowMonth,
          temperature := t, is_anomaly := "anomaly" } := by
  have hgrp' : ((rollAnalysis df 30).filter (fun r => r.city == c &&
      r.season == getSeason nowMonth)).length = 1 := by
    rw [groupTemps, List.length_map] at hgrp
    exact hgrp
  have hfne : (rollAnalysis df 30).filter (fun r => r.city == c &&
      r.season == getSeason nowMonth) ≠ [] := by
    intro hnil
    rw [hnil] at hgrp'
    simp at hgrp'
  obtain ⟨y, hy⟩ := List.exists_mem_of_ne_nil _ hfne
  have hy1 : y ∈ rollAnalysis df 30 := (List.mem_filter.mp hy).1
  have hy2 : (y.city == c && y.season == getSeason nowMonth) = true :=
    (List.mem_filter.mp hy).2
  have hx : seasonEnrich (rollAnalysis df 30) y ∈
      seasonalAnalysis (rollAnalysis df 30) :=
    List.mem_map_of_mem _ hy1
  obtain ⟨i, hti⟩ := cityIdxMap_exists_mem []
    (seasonalAnalysis (rollAnalysis df 30))
    (seasonEnrich (rollAnalysis df 30) y) hx
  have hpred : ((trendEnrich (seasonalAnalysis (rollAnalysis df 30)) i
      (seasonEnrich (rollAnalysis df 30) y)).city == c &&
      (trendEnrich (seasonalAnalysis (rollAnalysis df 30)) i
        (seasonEnrich (rollAnalysis df 30) y)).season ==
          getSeason nowMonth) = true := hy2
  have hfne3 : (longTermTrend (seasonalAnalysis
      (rollAnalysis df 30))).filter (fun r => r.city == c &&
        r.season == getSeason nowMonth) ≠ [] :=
    filter_mem_ne_nil hti hpred
  cases hfl : (longTermTrend (seasonalAnalysis
      (rollAnalysis df 30))).filter (fun r => r.city == c &&
        r.season == getSeason nowMonth) with
  | nil => exact absurd hfl hfne3
  | cons b bs =>
      have hbmem : b ∈ (longTermTrend (seasonalAnalysis
          (rollAnalysis df 30))).filter (fun r => r.city == c &&
            r.season == getSeason nowMonth) := by
        rw [hfl]
        exact List.mem_cons_self _ _
      obtain ⟨x, hxmem, hxpred, hbvar, _⟩ := trend_preserves_mem_filter
        (seasonalAnalysis (rollAnalysis df 30)) c (getSeason nowMonth)
        b hbmem
      obtain ⟨z, hz, hxz⟩ := List.mem_map.mp hxmem
      subst hxz
      have hand : (seasonEnrich (rollAnalysis df 30) z).city = c ∧
          (seasonEnrich (rollAnalysis df 30) z).season =
            getSeason nowMonth := by
        simpa [Bool.and_eq_true, beq_iff_eq] using hxpred
      have hzc : z.city = c := hand.1
      have hzs : z.season = getSeason nowMonth := hand.2
      have hvar : b.season_var = none := by
        rw [hbvar]
        show (if 2 ≤ (groupTemps (rollAnalysis df 30)
            z.city z.season).length then _ else _) = none
        rw [hzc, hzs, if_neg (by omega)]
      unfold checkAnomaly
      rw [hfl, List.head?_cons]
      dsimp only
      rw [hvar, withinBand_none_right]
      rfl

/-- Witness for `singleton_group_always_anomaly`: `tinyTable` has exactly
one winter observation for `"A"` (`10` degrees), and even the live
temperature `10` itself is classified `"anomaly"`. -/
theorem singleton_group_always_anomaly_witness :
    checkAnomaly "A" 10
        (longTermTrend (seasonalAnalysis (rollAnalysis tinyTable 30))) 1 =
      Except.ok
        { city := "A", season := "winter", temperature := 10,
          is_anomaly := "anomaly" } :=
  singleton_group_always_anomaly tinyTable "A" 1 10 (by decide)

/-! ### Claim C6 -/

/-- Claim C6, evaluation at the failing input: a city with a single
observation (temperature `7`).  Under the exact least-squares model with
total field division (`x / 0 = 0`, matching the minimum-norm solution of
the underdetermined one-point system), `long_term_trend` writes the
numeric trend `7` — the lone temperature — for that city.  No undefined
value is produced and nothing is signalled; in `numpy` the same call either
warns (`RankWarning`) and returns a rank-deficient numeric fit, or raises
`LinAlgError` out of the column scaling, depending on the version — in no
case is `trend` left undefined with an explicit per-city signal. -/
theorem trend_singleton_fabricates :
    longTermTrend [soloRow] = [⟨soloRow, 7⟩] := by
  have hct : cityTempsS [soloRow] "Solo" = [7] := rfl
  have h1 : natSum 1 = 0 := by
    rw [natSum, show List.range 1 = [0] from rfl]
    simp
  have h2 : natSqSum 1 = 0 := by
    rw [natSqSum, show List.range 1 = [0] from rfl]
    simp
  have h3 : idxTempSum [(7 : ℚ)] = 0 := by
    have he : ([(7 : ℚ)]).enum = [(0, (7 : ℚ))] := rfl
    simp [idxTempSum, he]
  have h4 : polyfit1 [(7 : ℚ)] = (0, 7) := by
    simp only [polyfit1, h3, List.length_cons, List.length_nil, h1, h2,
      List.sum_cons, List.sum_nil]
    norm_num
  show [trendEnrich [soloRow] 0 soloRow] = [⟨soloRow, 7⟩]
  have ht : trendEnrich [soloRow] 0 soloRow = ⟨soloRow, 7⟩ := by
    show (⟨soloRow,
      (polyfit1 (cityTempsS [soloRow] soloRow.city)).1 * ((0 : ℕ) : ℚ) +
        (polyfit1 (cityTempsS [soloRow] soloRow.city)).2⟩ : TrendRow) =
      ⟨soloRow, 7⟩
    rw [show cityTempsS [soloRow] soloRow.city = [(7 : ℚ)] from hct, h4]
    norm_num
  rw [ht]

/-! ### Claim C9 -/

theorem optionMapList_isSome (f : α → Option β) :
    ∀ l : List α, (∀ a ∈ l, (f a).isSome) →
      ∃ bs, optionMapList f l = some bs ∧ bs.length = l.length := by
  intro l
  induction l with
  | nil => intro _; exact ⟨[], rfl, rfl⟩
  | cons a t ih =>
      intro h
      obtain ⟨b, hb⟩ := Option.isSome_iff_exists.mp
        (h a (List.mem_cons_self _ _))
      obtain ⟨bs, hbs, hlen⟩ := ih (fun x hx => h x (List.mem_cons_of_mem _ hx))
      refine ⟨b :: bs, ?_, ?_⟩
      · show optionMapList f (a :: t) = some (b :: bs)
        rw [optionMapList, hb, hbs]
      · simp [hlen]

theorem insertSorted_length (r : LoadedRow) (l : List LoadedRow) :
    (insertSorted r l).length = l.length + 1 := by
  induction l with
  | nil => rfl
  | cons x xs ih =>
      rw [insertSorted]
      by_cases h : rowLe r x
      · rw [if_pos h]
        rfl
      · rw [if_neg h, List.length_cons, ih, List.length_cons]

theorem sortRows_length (l : List LoadedRow) :
    (sortRows l).length = l.length := by
  induction l with
  | nil => rfl
  | cons x xs ih =>
      show (insertSorted x (sortRows xs)).length = xs.length + 1
      rw [insertSorted_length, ih]

/-- Claim C9, counterexample: `load_data` does not raise on a non-numeric
temperature.  On `rawBadTemp` (temperatures `"7"` and `"abc"`), the load
succeeds and returns the full two-row table sorted by city and timestamp,
the temperature column kept textual — `read_csv` demotes the whole column
to strings when any entry fails to parse, and nothing checks it
afterwards. -/
theorem load_data_non_numeric_no_error :
    loadData rawBadTemp = Except.ok
      [⟨"A", (2020, 1, 1), CellVal.txt "abc"⟩,
        ⟨"B", (2020, 1, 2), CellVal.txt "7"⟩] := rfl

/-- Claim C9, amended: load-time failure is whole-load, but only an
unparseable timestamp fails the load; a non-numeric temperature raises
nothing — whenever every timestamp parses, `load_data` returns the whole
table with no row skipped. -/
theorem load_data_total_when_timestamps_parse (rows : List RawRow)
    (h : ∀ r ∈ rows, (parseDate r.timestamp).isSome) :
    ∃ l, loadData rows = Except.ok l ∧ l.length = rows.length := by
  obtain ⟨bs, hbs, hlen⟩ := optionMapList_isSome
    (fun r : RawRow => (parseDate r.timestamp).map
      (fun d => LoadedRow.mk r.city d
        (loadCell (rows.all (fun x => (parseDecimal x.temperature).isSome))
          r.temperature))) rows
    (fun r hr => by
      obtain ⟨d, hd⟩ := Option.isSome_iff_exists.mp (h r hr)
      simp [hd])
  refine ⟨sortRows bs, ?_, ?_⟩
  · unfold loadData
    rw [hbs]
  · rw [sortRows_length, hlen]

/-- Witness for `load_data_total_when_timestamps_parse` on `rawBadTemp`:
both timestamps parse, so the whole two-row table loads. -/
theorem load_data_total_witness :
    ∃ l, loadData rawBadTemp = Except.ok l ∧ l.length = rawBadTemp.length :=
  load_data_total_when_timestamps_parse rawBadTemp (by decide)

/-! ### Remaining witnesses -/

/-- Witness for `roll_stats_correct` on `rollTable` at window `2`: city
`"A"` has two observations and its second rolling mean is the mean of its
first two temperatures, undisturbed by the interleaved `"B"` row. -/
theorem roll_stats_correct_witness :
    (((rollAnalysis rollTable 2).filter (fun r => r.city == "A")).length =
        (cityTemps rollTable "A").length) ∧
    (((rollAnalysis rollTable 2).filter (fun r => r.city == "A")).get
        ⟨1, by decide⟩).roll_mean_30 =
      some (((cityTemps rollTable "A").take 2).sum / (2 : ℚ)) := by
  have h := roll_stats_correct rollTable "A" 2 (by decide) (by decide)
  exact ⟨h.1, h.2.2.1 (by decide)⟩

/-- Witness for `trend_ols_linear` on `linTable` (temperatures `5, 7`,
that is `2·t + 5`): the fit is `(2, 5)` and the stored trend equals the
temperature at the first observation. -/
theorem trend_ols_linear_witness :
    polyfit1 (cityTempsS linTable "L") = (2, 5) ∧
    (((longTermTrend linTable).filter (fun r => r.city == "L")).get
        ⟨0, by decide⟩).trend =
      (((longTermTrend linTable).filter (fun r => r.city == "L")).get
        ⟨0, by decide⟩).temperature := by
  have hlin : ∀ i, ∀ h : i < (cityTempsS linTable "L").length,
      (cityTempsS linTable "L").get ⟨i, h⟩ = 2 * (i : ℚ) + 5 := by
    intro i h
    have h2 : i < 2 := h
    interval_cases i
    · show (5 : ℚ) = 2 * ((0 : ℕ) : ℚ) + 5
      norm_num
    · show (7 : ℚ) = 2 * ((1 : ℕ) : ℚ) + 5
      norm_num
  have h := (trend_ols_linear linTable "L").2 ⟨by decide, hlin⟩
  exact ⟨h.1, h.2 0 (by decide)⟩

end TempAnalysis
